import Mathlib

/-!
Verification development for the realish-time LLM chat backend.

The Python sources under `backend/app` are shallowly embedded:

* `backend/app/utils.py`            → `clean_llm_text` and its helpers;
* `backend/app/services/llm_naming.py` → `sanitize_title`, `make_title_request`,
  `get_conversation_title`;
* `backend/app/services/llm.py`     → `stream_openai`, `stream_llm`, `stream_chat`;
* `backend/app/services/vad/__init__.py` → `frame_generator`, `trim_silence`;
* `backend/app/services/conversations.py` → the `Store` operations
  (`add_message`, `rename_conversation`, `update_message_audio_path`);
* `backend/app/services/audio.py`   → `synthesize_speech`;
* `backend/app/services/streaming.py` → `handle_text_message`,
  `handle_voice_message`, `maybe_assign_conversation_title`.

Strings are modelled as `List Char` internally (wrapped into `String` at the
interfaces), network responses as explicit data given to the pure functions,
and the database as an explicit `Store` value threaded through the operations.
The Python whitespace regex class is modelled by its ASCII members, which covers
every character the embedded code manipulates.
-/

namespace RealishChat

/-! ### Python string primitives (over `List Char`) -/

/-- The ASCII members of the Python `str.strip()` / regex `\s` whitespace class. -/
def isPyWs (c : Char) : Bool :=
  c = ' ' || c = '\t' || c = '\n' || c = '\r' || c = '\x0b' || c = '\x0c'

/-- `str.lstrip` restricted to a character class. -/
def stripLeftIf (p : Char → Bool) (l : List Char) : List Char :=
  l.dropWhile p

/-- `str.rstrip` restricted to a character class. -/
def stripRightIf (p : Char → Bool) (l : List Char) : List Char :=
  (l.reverse.dropWhile p).reverse

/-- Python `str.strip(chars)` — remove the given characters from both ends. -/
def stripIf (p : Char → Bool) (l : List Char) : List Char :=
  stripRightIf p (stripLeftIf p l)

/-- Python `str.strip()` (whitespace strip). -/
def pyStrip (l : List Char) : List Char := stripIf isPyWs l

/-- `pyStrip` lifted to `String`. -/
def pyStripStr (s : String) : String := String.mk (pyStrip s.toList)

/-- Worker for Python `str.split()`: `cur` is the current word, reversed. -/
def splitWsGo : List Char → List Char → List (List Char)
  | cur, [] => if cur.isEmpty then [] else [cur.reverse]
  | cur, c :: rest =>
    if isPyWs c then
      if cur.isEmpty then splitWsGo [] rest
      else cur.reverse :: splitWsGo [] rest
    else splitWsGo (c :: cur) rest

/-- Python `str.split()` with no argument: split on whitespace runs,
discarding empty words. -/
def pySplitWs (l : List Char) : List (List Char) := splitWsGo [] l

/-- Python `" ".join(words)`. -/
def joinWords : List (List Char) → List Char
  | [] => []
  | [w] => w
  | w :: ws => w ++ ' ' :: joinWords ws

/-- Replace every maximal run of characters satisfying `p` by a single space
(the worker tracks whether we are inside such a run). -/
def collapseRunsGo (p : Char → Bool) : Bool → List Char → List Char
  | _, [] => []
  | inRun, c :: rest =>
    if p c then
      if inRun then collapseRunsGo p true rest
      else ' ' :: collapseRunsGo p true rest
    else c :: collapseRunsGo p false rest

/-- `re.sub(r"<class>+", " ", s)` for a character class `p`. -/
def collapseRuns (p : Char → Bool) (l : List Char) : List Char :=
  collapseRunsGo p false l

/-- Boolean list-begins-with test (Python `str.startswith`). -/
def beginsWith : List Char → List Char → Bool
  | [], _ => true
  | _ :: _, [] => false
  | p :: ps, c :: cs => p = c && beginsWith ps cs

/-- Split a list at the first `':'` (Python `str.split(":", maxsplit=1)`);
`none` when there is no colon, i.e. when `len(parts) == 1`. -/
def splitFirstColon : List Char → Option (List Char × List Char)
  | [] => none
  | c :: rest =>
    if c = ':' then some ([], rest)
    else (splitFirstColon rest).map (fun p => (c :: p.1, p.2))

/-! ### `backend/app/utils.py` — `clean_llm_text` -/

/-- Locate the start of the nearest `"|>"` in the list, provided no newline
occurs first (regex `.` does not match a newline, so a match of
`<\|.*?\|>` cannot span lines). -/
def findCloseBar : List Char → Option Nat
  | '|' :: '>' :: _ => some 0
  | '\n' :: _ => none
  | _ :: rest => (findCloseBar rest).map (· + 1)
  | [] => none

/-- Fuel-indexed scanner for `CONTROL_PATTERN.sub("", text)` with
`CONTROL_PATTERN = re.compile(r"<\|.*?\|>")`: leftmost, shortest matches of
the control-token bracket syntax are deleted. -/
def stripCtlGo : Nat → List Char → List Char
  | 0, l => l
  | _ + 1, [] => []
  | fuel + 1, '<' :: '|' :: rest =>
    match findCloseBar rest with
    | some i => stripCtlGo fuel (rest.drop (i + 2))
    | none => '<' :: stripCtlGo fuel ('|' :: rest)
  | fuel + 1, c :: rest => c :: stripCtlGo fuel rest

/-- `CONTROL_PATTERN.sub("", text)`. The list length is always enough fuel. -/
def stripControlTokens (l : List Char) : List Char := stripCtlGo l.length l

/-- Python `s.split("\n")`. -/
def splitLines : List Char → List (List Char)
  | [] => [[]]
  | c :: rest =>
    if c = '\n' then [] :: splitLines rest
    else
      match splitLines rest with
      | [] => [[c]]
      | w :: ws => (c :: w) :: ws

/-- Python `"\n".join(lines)`. -/
def joinLines : List (List Char) → List Char
  | [] => []
  | [w] => w
  | w :: ws => w ++ '\n' :: joinLines ws

/-- The per-line filter of `clean_llm_text`: a whitespace-only line is kept
as an empty line, a commentary-marker line is dropped, any other line is
kept verbatim. -/
def cleanLineStep (line : List Char) : Option (List Char) :=
  let stripped := pyStrip line
  if stripped.isEmpty then some []
  else if beginsWith "assistantcommentary to=".toList stripped
      || beginsWith "commentary to=".toList stripped then none
  else some line

/-- `clean_llm_text` from `backend/app/utils.py`. -/
def clean_llm_text (text : String) : String :=
  if text = "" then ""
  else
    let cleaned := stripControlTokens text.toList
    let cleaned := cleaned.filter (fun c => c ≠ '\r')
    let filtered := (splitLines cleaned).filterMap cleanLineStep
    let result := joinLines filtered
    let result :=
      if beginsWith "assistant".toList result then
        (result.drop "assistant".length).dropWhile (fun c => c = ':' || c = ' ')
      else result
    String.mk result

/-! ### `backend/app/services/llm_naming.py` -/

/-- The quote characters stripped by `_sanitize_title` after the label step:
the straight double quote, straight apostrophe (code 39), backtick (code 96),
and the typographic double and single quotes. -/
def quoteChars : List Char :=
  ['"', Char.ofNat 39, Char.ofNat 96, '“', '”', '„', '‘', '’']

/-- The punctuation characters of `title.strip("-–—:;,.!?")` in
`_sanitize_title`. -/
def punctChars : List Char := ['-', '–', '—', ':', ';', ',', '.', '!', '?']

/-- Characters matched by the regex class `[\r\n]`. -/
def isCrLf (c : Char) : Bool := c = '\r' || c = '\n'

/-- The label-dropping step of `_sanitize_title`: split once at a colon and
drop the left part when it strips and lowercases to `title` or
`conversation`. -/
def stripLabel (title : List Char) : List Char :=
  match splitFirstColon title with
  | some p =>
    if (pyStrip p.1).map Char.toLower = "title".toList
        || (pyStrip p.1).map Char.toLower = "conversation".toList then p.2
    else title
  | none => title

/-- The cleanup chain of `_sanitize_title` after the label step: strip
whitespace then surrounding quotes, collapse line-break runs then
whitespace runs to single spaces, then strip whitespace and surrounding
punctuation. -/
def normalizeTitleBody (title : List Char) : List Char :=
  stripIf (fun c => punctChars.contains c)
    (pyStrip (collapseRuns isPyWs (collapseRuns isCrLf
      (stripIf (fun c => quoteChars.contains c) (pyStrip title)))))

/-- The word-count step of `_sanitize_title`: reject an empty remainder or
fewer than 2 words, truncate to the first 5 words when there are more than
5, otherwise keep the text. -/
def finalizeTitleWords (title : List Char) : Option String :=
  if title.isEmpty then none
  else if (pySplitWs title).length < 2 then none
  else if (pySplitWs title).length > 5 then
    some (String.mk (joinWords ((pySplitWs title).take 5)))
  else some (String.mk title)

/-- `_sanitize_title` from `backend/app/services/llm_naming.py`, on a string
argument (the `None` argument case of the Python function is handled by
`Option` plumbing in the callers; `if not raw_title` is the emptiness test). -/
def sanitize_title (rawTitle : String) : Option String :=
  if rawTitle = "" then none
  else if (pyStrip rawTitle.toList).isEmpty then none
  else finalizeTitleWords (normalizeTitleBody (stripLabel (pyStrip rawTitle.toList)))

/-- A network interaction that either fails (connection error, non-success
status, or undecodable body — the `httpx.HTTPStatusError`,
`httpx.RequestError` and `ValueError` cases) or delivers a decoded body. -/
inductive HttpOutcome (α : Type) where
  | netError
  | ok (body : α)
deriving DecidableEq

/-- `_make_title_request`: a failed request is logged and mapped to `None`
rather than raised. -/
def make_title_request {α : Type} : HttpOutcome α → Option α
  | .netError => none
  | .ok body => some body

/-- Decoded body of the chat-completions title request: the message content
of each choice (`choices[i].message.content`, absent or non-string content
modelled as `none`). -/
structure OpenAITitleBody where
  choices : List (Option String)
deriving DecidableEq

/-- Decoded body of the `/api/generate` title request: the optional
`response` and `message` string fields. -/
structure GenerateTitleBody where
  response : Option String
  message : Option String
deriving DecidableEq

/-- A JSON value that can sit in the `message`/`response` fields of the
`/api/chat` title response: either a plain string or a message object with
an optional string `content` field (message objects are assumed non-empty,
hence truthy). -/
inductive ChatMsgVal where
  | str (s : String)
  | obj (content : Option String)
deriving DecidableEq

/-- Decoded body of the `/api/chat` title request. -/
structure ChatTitleBody where
  message : Option ChatMsgVal
  response : Option ChatMsgVal
deriving DecidableEq

/-- `_extract_message_text`: a string content that is non-empty after
stripping is returned stripped; anything else yields `None`. -/
def extract_message_text (content : Option String) : Option String :=
  match content with
  | some c => if (pyStrip c.toList).isEmpty then none else some (String.mk (pyStrip c.toList))
  | none => none

/-- `_request_openai_style_title`, as a function of the request outcome. -/
def request_openai_style_title (resp : HttpOutcome OpenAITitleBody) : Option String :=
  match make_title_request resp with
  | none => none
  | some data =>
    match data.choices with
    | [] => none
    | choice :: _ => extract_message_text choice

/-- Python truthiness of an optional string (`None` and `""` are falsy). -/
def truthyStr : Option String → Bool
  | none => false
  | some s => s ≠ ""

/-- `_request_LLM_title`: `data.get("response") or data.get("message")`. -/
def request_generate_title (resp : HttpOutcome GenerateTitleBody) : Option String :=
  match make_title_request resp with
  | none => none
  | some data => if truthyStr data.response then data.response else data.message

/-- Python truthiness of an optional `message`/`response` JSON value. -/
def truthyMsgVal : Option ChatMsgVal → Bool
  | none => false
  | some (.str s) => s ≠ ""
  | some (.obj _) => true

/-- `_request_LLM_chat_title`: `data.get("message") or data.get("response")`,
then dispatch on the value being an object or a string. -/
def request_chat_title (resp : HttpOutcome ChatTitleBody) : Option String :=
  match make_title_request resp with
  | none => none
  | some data =>
    let message := if truthyMsgVal data.message then data.message else data.response
    match message with
    | some (.obj content) => extract_message_text content
    | some (.str s) => some s
    | none => none

/-- Result of `get_conversation_title`: whether any title request was issued
to the backend, and the returned title (Python `None` is `none`). -/
structure TitleOutcome where
  contactedBackend : Bool
  title : Option String
deriving DecidableEq

/-- `get_conversation_title` from `backend/app/services/llm_naming.py`,
as a function of the outcomes of its three protocol attempts. The three
attempts are tried in order, the first that is not `None` wins, and the
winner is sanitized. -/
def get_conversation_title (userMessage assistantMessage : String)
    (respA : HttpOutcome OpenAITitleBody) (respB : HttpOutcome GenerateTitleBody)
    (respC : HttpOutcome ChatTitleBody) : TitleOutcome :=
  let u := pyStripStr userMessage
  let a := pyStripStr assistantMessage
  if u = "" || a = "" then ⟨false, none⟩
  else
    let title := request_openai_style_title respA
    let title := if title = none then request_generate_title respB else title
    let title := if title = none then request_chat_title respC else title
    ⟨true,
      match title with
      | none => none
      | some t => sanitize_title t⟩

/-! ### `backend/app/services/llm.py` — the streaming generation client -/

/-- An event yielded by the streaming client, as consumed by the
orchestrator: `{"done": True}` or `{"message": {"content": s}}`. -/
inductive StreamEvent where
  | done
  | message (content : String)
deriving DecidableEq

/-- One run of an async generator: the events it yielded, in order, and
whether it then terminated by raising instead of returning. -/
structure GenRun where
  chunks : List StreamEvent
  errored : Bool
deriving DecidableEq

/-- One line of the chat-completions SSE stream, after the branches taken by
`_stream_openai`: an empty line; a line without the `data:` marker; the
`data: [DONE]` sentinel; a `data:` line whose JSON does not decode
(`json.JSONDecodeError` is caught and skipped); a decoded event with an
empty `choices` list; or a decoded event carrying
`choices[0].delta.content` (possibly the empty string). -/
inductive SSELine where
  | blank
  | noData (payload : String)
  | doneMark
  | malformed
  | noChoices
  | delta (content : String)
deriving DecidableEq

/-- The body of a streaming HTTP response: whether opening the stream and
the status check succeed (`client.stream` + `raise_for_status`), the lines
readable from it, and whether reading past those lines raises a mid-stream
network error. -/
structure HttpStream (α : Type) where
  connectOk : Bool
  lines : List α
  midReadError : Bool
deriving DecidableEq

/-- The line loop of `_stream_openai`: `[DONE]` yields a done event and
breaks (so a pending mid-stream read error is never hit), content deltas are
yielded when non-empty, all other lines are skipped, and exhausting the
lines surfaces the mid-stream read error if there is one. -/
def streamOpenaiLines : List SSELine → Bool → GenRun
  | [], midErr => ⟨[], midErr⟩
  | line :: rest, midErr =>
    match line with
    | .blank => streamOpenaiLines rest midErr
    | .noData _ => streamOpenaiLines rest midErr
    | .doneMark => ⟨[.done], false⟩
    | .malformed => streamOpenaiLines rest midErr
    | .noChoices => streamOpenaiLines rest midErr
    | .delta content =>
      let tail := streamOpenaiLines rest midErr
      if content = "" then tail else ⟨.message content :: tail.chunks, tail.errored⟩

/-- `_stream_openai` as a function of the HTTP response: a connection or
status failure raises before anything is yielded. -/
def stream_openai (resp : HttpStream SSELine) : GenRun :=
  if resp.connectOk then streamOpenaiLines resp.lines resp.midReadError
  else ⟨[], true⟩

/-- One line of the fallback `/api/generate` stream: an empty line is
skipped; a line that `json.loads` cannot decode raises (this call is not
guarded); a decoded object yields its `response` field if the key is
present (even when empty) and then stops if its `done` flag is truthy. -/
inductive GenerateLine where
  | blank
  | badJson
  | item (response : Option String) (doneFlag : Bool)
deriving DecidableEq

/-- The line loop of `_stream_llm`. -/
def streamLlmLines : List GenerateLine → Bool → GenRun
  | [], midErr => ⟨[], midErr⟩
  | line :: rest, midErr =>
    match line with
    | .blank => streamLlmLines rest midErr
    | .badJson => ⟨[], true⟩
    | .item response doneFlag =>
      let tail := if doneFlag then GenRun.mk [.done] false else streamLlmLines rest midErr
      match response with
      | some s => ⟨.message s :: tail.chunks, tail.errored⟩
      | none => tail

/-- `_stream_llm` as a function of the HTTP response. -/
def stream_llm (resp : HttpStream GenerateLine) : GenRun :=
  if resp.connectOk then streamLlmLines resp.lines resp.midReadError
  else ⟨[], true⟩

/-- One run of `LLMClient.stream_chat`: the yielded events, whether the run
ends by raising, and whether the fallback protocol was attempted. -/
structure StreamChatRun where
  chunks : List StreamEvent
  errored : Bool
  usedFallback : Bool
deriving DecidableEq

/-- `stream_chat` from `backend/app/services/llm.py`: the primary
chat-completions protocol is consumed inside a `try` block that re-yields
its events; any exception from it (at any point of the iteration) is
logged and swallowed, after which the fallback `/api/generate` protocol is
consumed and its events are yielded after the ones already emitted; a
fallback failure propagates. -/
def stream_chat (primary : HttpStream SSELine) (fallback : HttpStream GenerateLine) :
    StreamChatRun :=
  let p := stream_openai primary
  if p.errored then
    let f := stream_llm fallback
    ⟨p.chunks ++ f.chunks, f.errored, true⟩
  else ⟨p.chunks, false, false⟩

/-! ### `backend/app/services/vad/__init__.py` — the voice-activity trimmer -/

/-- `frame_bytes`: `int(sample_rate * (frame_duration_ms / 1000.0) * 2)`,
which for the valid durations (10/20/30 ms) equals this integer form. -/
def frameBytes (sampleRate frameDurationMs : Nat) : Nat :=
  sampleRate * frameDurationMs * 2 / 1000

/-- Fuel-indexed worker for `_frame_generator`: cut the buffer into chunks
of `fb` bytes, the final chunk possibly shorter. The buffer length is
always enough fuel when `fb ≥ 1`. -/
def frameGenGo (fb : Nat) : Nat → List Nat → List (List Nat)
  | 0, _ => []
  | _ + 1, [] => []
  | fuel + 1, pcm => pcm.take fb :: frameGenGo fb fuel (pcm.drop fb)

/-- `_frame_generator` over a byte list. -/
def frame_generator (fb : Nat) (pcm : List Nat) : List (List Nat) :=
  frameGenGo fb pcm.length pcm

/-- Index of the first `true` in the speech-flag list (the first loop of
`trim_silence`). -/
def firstSpeechIdx : List Bool → Option Nat
  | [] => none
  | flag :: rest =>
    if flag then some 0 else (firstSpeechIdx rest).map (· + 1)

/-- Index of the last `true` in the speech-flag list (the reversed second
loop of `trim_silence`). -/
def lastSpeechIdx (flags : List Bool) : Option Nat :=
  (firstSpeechIdx flags.reverse).map (fun off => flags.length - off - 1)

/-- `VoiceActivityDetector.trim_silence`, with the external webrtcvad
classifier abstracted as `isSpeech` (invoked once per generated frame) and
`fb` the configured frame size in bytes. The Python slice
`pcm16[start_byte:end_byte]` with `end_byte = min(len, (last+1)*fb)` is
`drop` then `take`. -/
def trim_silence (isSpeech : List Nat → Bool) (fb : Nat) (pcm : List Nat) : List Nat :=
  let frames := frame_generator fb pcm
  if frames.isEmpty then pcm
  else
    let flags := frames.map isSpeech
    match firstSpeechIdx flags with
    | none => []
    | some firstIdx =>
      match lastSpeechIdx flags with
      | none => []
      | some lastIdx => (pcm.drop (firstIdx * fb)).take ((lastIdx + 1) * fb - firstIdx * fb)

/-! ### `backend/app/services/conversations.py` and the storage layer

The persistence capability is modelled as an explicit `Store` value: the
conversations and messages tables, plus the auto-increment counter for
message ids (SQLite assigns ids monotonically from 1, so list order of
`messages` is id order). Each Python helper opens one session that commits
on success; here that is one pure `Store` transformation. -/

/-- Row of the `conversations` table (timestamps are not needed by any
claim and are omitted). -/
structure StoredConversation where
  id : String
  title : String
deriving DecidableEq

/-- Row of the `messages` table. -/
structure StoredMessage where
  id : Nat
  conversationId : String
  role : String
  content : String
  audioPath : Option String
  imagePath : Option String
deriving DecidableEq

/-- The database state. -/
structure Store where
  conversations : List StoredConversation
  messages : List StoredMessage
  nextMessageId : Nat
deriving DecidableEq

/-- The empty database, with message ids starting at 1. -/
def emptyStore : Store := ⟨[], [], 1⟩

/-- `_normalize_media_path`: empty/`None` paths map to `None`; backslashes
become forward slashes; a leading `/media/` is dropped; an absolute path is
made relative to the media root when it lies under it, otherwise the
cleaned string is used as a fallback. `Path.is_absolute` and
`Path.relative_to` are modelled for forward-slash paths. -/
def normalize_media_path (mediaRoot : String) (path : Option String) : Option String :=
  match path with
  | none => none
  | some p =>
    if p = "" then none
    else
      let value := String.mk (p.toList.map (fun c => if c = '\\' then '/' else c))
      let value :=
        if beginsWith "/media/".toList value.toList then String.mk (value.toList.drop 7)
        else value
      if beginsWith ['/'] p.toList then
        if beginsWith (mediaRoot.toList ++ ['/']) p.toList then
          some (String.mk (p.toList.drop (mediaRoot.toList.length + 1)))
        else some value
      else some value

/-- `add_message`: creates the conversation with the placeholder title if it
does not exist, then inserts the message with normalized media paths and
the next id. Returns the updated store and the inserted row. -/
def add_message (mediaRoot : String) (s : Store) (conversationId role content : String)
    (audioPath imagePath : Option String) : Store × StoredMessage :=
  let s1 :=
    if s.conversations.any (fun c => c.id = conversationId) then s
    else { s with conversations := s.conversations ++ [⟨conversationId, "New Conversation"⟩] }
  let msg : StoredMessage :=
    ⟨s1.nextMessageId, conversationId, role, content,
      normalize_media_path mediaRoot audioPath, normalize_media_path mediaRoot imagePath⟩
  ({ s1 with messages := s1.messages ++ [msg], nextMessageId := s1.nextMessageId + 1 }, msg)

/-- `rename_conversation`: an SQL `UPDATE ... WHERE id = ...`; the returned
flag is `rowcount > 0`, i.e. whether the conversation exists. -/
def rename_conversation (s : Store) (conversationId title : String) : Store × Bool :=
  (⟨s.conversations.map (fun c => if c.id = conversationId then ⟨c.id, title⟩ else c),
      s.messages, s.nextMessageId⟩,
    s.conversations.any (fun c => c.id = conversationId))

/-- The row transformation of `update_message_audio_path`: the row with the
matching id gets the normalized audio path, every other row is untouched. -/
def setAudioPath (mediaRoot : String) (messageId : Nat) (audioPath : String)
    (m : StoredMessage) : StoredMessage :=
  if m.id = messageId then
    ⟨m.id, m.conversationId, m.role, m.content,
      normalize_media_path mediaRoot (some audioPath), m.imagePath⟩
  else m

/-- `update_message_audio_path`: `session.get(Message, message_id)` fetches
by primary key; when the id is absent the function returns with no change,
otherwise that row alone gets the normalized audio path. Modelled as a
pointwise update that leaves every row with a different id untouched. -/
def update_message_audio_path (mediaRoot : String) (s : Store) (messageId : Nat)
    (audioPath : String) : Store :=
  { s with messages := s.messages.map (setAudioPath mediaRoot messageId audioPath) }

/-- `StreamingCoordinator._load_messages`: the messages of one conversation
ordered by id (insertion order, since ids are assigned monotonically). -/
def load_messages (s : Store) (conversationId : String) : List StoredMessage :=
  s.messages.filter (fun m => m.conversationId = conversationId)

/-! ### `backend/app/services/audio.py` — `synthesize_speech` -/

/-- The text cleanup inside `synthesize_speech`: strip, then, if an
asterisk is present, delete all asterisks and collapse runs of two or more
spaces to one space. -/
def ttsNormalize (text : String) : String :=
  let t := pyStrip text.toList
  let t :=
    if t.contains '*' then collapseRuns (fun c => c = ' ') (t.filter (fun c => c ≠ '*'))
    else t
  String.mk t

/-- `SpeechService.synthesize_speech` as a function of the synthesis
outcome `kokoroResult` (`none` when `Kokoro.create` raises — the failure is
logged and swallowed — and the written output path on success): disabled
voice output and empty normalized text both skip synthesis with `None`. -/
def synthesize_speech (enableVoiceOutput : Bool) (text : String)
    (kokoroResult : Option String) : Option String :=
  if !enableVoiceOutput then none
  else if ttsNormalize text = "" then none
  else kokoroResult

/-! ### `backend/app/services/streaming.py` — the turn orchestrator -/

/-- A `StreamingChunk` emitted by the coordinator, with its `type` tag and
`data` fields made explicit. -/
inductive TurnEvent where
  | transcription (content : String) (audioPath : String)
  | assistantDelta (content : String)
  | assistantAudio (audioPath : String)
  | conversationTitle (title : String) (conversationId : String)
deriving DecidableEq

/-- The environment of one turn: everything the coordinator receives from
the external services, as data. `chunks` is the event sequence read from
`llm.stream_chat`, `titleProposal` the return value of
`get_conversation_title` (a network call), `kokoroResult` the synthesis
outcome, and `enableVoiceOutput`/`mediaRoot` the relevant settings. -/
structure TurnEnv where
  chunks : List StreamEvent
  titleProposal : Option String
  enableVoiceOutput : Bool
  kokoroResult : Option String
  mediaRoot : String
deriving DecidableEq

/-- The event loop of `handle_text_message`: stop at the first done event;
for each message event clean the raw content with `clean_llm_text` and keep
it only when the cleaned piece is non-empty. Returns the reply buffer,
whose entries are exactly the emitted `assistant_delta` contents. -/
def deltaPieces : List StreamEvent → List String
  | [] => []
  | .done :: _ => []
  | .message raw :: rest =>
    let piece := clean_llm_text raw
    if piece = "" then deltaPieces rest else piece :: deltaPieces rest

/-- `audio_path.relative_to(settings.media_root)` with the `ValueError`
fallback to the path itself, then `.as_posix()` (paths are already
forward-slash here). -/
def relativeToMediaRoot (mediaRoot p : String) : String :=
  if beginsWith (mediaRoot.toList ++ ['/']) p.toList then
    String.mk (p.toList.drop (mediaRoot.toList.length + 1))
  else p

/-- `StreamingCoordinator._maybe_assign_conversation_title`: skip when the
user or assistant text is empty, when the loaded prior history already has
an assistant-role message, when the conversation is missing or already
renamed away from the placeholder, or when the title client returns a falsy
proposal; otherwise rename and report the new title if the rename hit a
row. -/
def maybe_assign_conversation_title (s : Store) (conversationId : String)
    (priorMessages : List StoredMessage) (userMessage : StoredMessage)
    (assistantText : String) (titleProposal : Option String) : Store × Option String :=
  if userMessage.content = "" || assistantText = "" then (s, none)
  else if priorMessages.any (fun m => m.role = "assistant") then (s, none)
  else
    match s.conversations.find? (fun c => c.id = conversationId) with
    | none => (s, none)
    | some conversation =>
      if conversation.title ≠ "New Conversation" then (s, none)
      else
        match titleProposal with
        | none => (s, none)
        | some proposal =>
          if proposal = "" then (s, none)
          else
            let r := rename_conversation s conversationId proposal
            (r.1, if r.2 then some proposal else none)

/-- The value of one turn: the final store, the emitted event sequence, and
the assistant message row created for this turn (if any). -/
structure TurnResult where
  store : Store
  events : List TurnEvent
  assistantMessage : Option StoredMessage
deriving DecidableEq

/-- The user-message stage of `handle_text_message` (streaming.py lines
75-82): insert the user message (image reference attached) and, when an
audio reference was supplied, attach it to the inserted message. Returns
the store and the inserted user row. -/
def userStage (env : TurnEnv) (store : Store) (conversationId text : String)
    (storedImagePath userAudioPath : Option String) : Store × StoredMessage :=
  let r1 := add_message env.mediaRoot store conversationId "user" text none storedImagePath
  match userAudioPath with
  | some p => (update_message_audio_path env.mediaRoot r1.1 r1.2.id p, r1.2)
  | none => r1

/-- The assistant-persistence stage of `handle_text_message` (lines
99-110): for a non-empty reply buffer, insert the assistant message built
from the joined buffer and run the title assignment; for an empty buffer
do nothing. Returns the store, the created assistant row, and the newly
assigned title. -/
def assistantStage (env : TurnEnv) (s2 : Store) (conversationId : String)
    (messages : List StoredMessage) (userMessage : StoredMessage) (buffer : List String) :
    Store × Option StoredMessage × Option String :=
  if buffer.isEmpty then (s2, none, none)
  else
    let r2 := add_message env.mediaRoot s2 conversationId "assistant" (String.join buffer)
      none none
    let r3 := maybe_assign_conversation_title r2.1 conversationId messages userMessage
      (String.join buffer) env.titleProposal
    (r3.1, some r2.2, r3.2)

/-- The guard `if audio_path and assistant_message_id` of lines 115-123:
the media-root-relative synthesized path paired with the assistant-message
id, when both exist (message ids are assigned from 1, so the id is always
truthy). -/
def audioAttachment (env : TurnEnv) (audioPath : Option String)
    (assistantMessage : Option StoredMessage) : Option (String × Nat) :=
  match audioPath, assistantMessage with
  | some ap, some am => some (relativeToMediaRoot env.mediaRoot ap, am.id)
  | _, _ => none

/-- The `assistant_audio` events produced by lines 115-123. -/
def audioEventsOf : Option (String × Nat) → List TurnEvent
  | some pr => [TurnEvent.assistantAudio pr.1]
  | none => []

/-- The `conversation_title` events produced by lines 125-129. -/
def titleEventsOf (conversationId : String) : Option String → List TurnEvent
  | some t => [TurnEvent.conversationTitle t conversationId]
  | none => []

/-- `StreamingCoordinator.handle_text_message`. In source order: insert the
user message (attaching any image reference), attach a supplied audio
reference to it, load the history, drive the generation stream collecting
the reply buffer and yielding an `assistant_delta` per cleaned non-empty
fragment, then — only for a non-empty buffer — insert the assistant message
and maybe assign a title, then always attempt speech synthesis on the
joined buffer, yielding an `assistant_audio` event (after attaching the
media-root-relative path) only when synthesis produced a path and an
assistant message exists, and finally yield the `conversation_title` event
if a title was assigned. -/
def handle_text_message (env : TurnEnv) (store : Store) (conversationId text : String)
    (storedImagePath userAudioPath : Option String) : TurnResult :=
  let up := userStage env store conversationId text storedImagePath userAudioPath
  let messages := load_messages up.1 conversationId
  let buffer := deltaPieces env.chunks
  let stage := assistantStage env up.1 conversationId messages up.2 buffer
  let audioPath := synthesize_speech env.enableVoiceOutput (String.join buffer) env.kokoroResult
  let attach := audioAttachment env audioPath stage.2.1
  let s4 :=
    match attach with
    | some pr => update_message_audio_path env.mediaRoot stage.1 pr.2 pr.1
    | none => stage.1
  ⟨s4,
    buffer.map TurnEvent.assistantDelta ++ audioEventsOf attach ++
      titleEventsOf conversationId stage.2.2,
    stage.2.1⟩

/-- `StreamingCoordinator.handle_voice_message`: emit the `transcription`
event carrying the transcript and the normalized audio reference, then
delegate to `handle_text_message` with the transcript as the input text,
threading the stored audio path through. `transcript` is the return value
of `transcribe_audio`. -/
def handle_voice_message (env : TurnEnv) (store : Store) (conversationId : String)
    (transcript : String) (audioPathArg : String) (imagePath storedAudioPath : Option String) :
    TurnResult :=
  let normalizedAudioPath :=
    match storedAudioPath with
    | some p => String.mk (p.toList.map (fun c => if c = '\\' then '/' else c))
    | none => String.mk (audioPathArg.toList.map (fun c => if c = '\\' then '/' else c))
  let inner := handle_text_message env store conversationId transcript imagePath storedAudioPath
  ⟨inner.store, TurnEvent.transcription transcript normalizedAudioPath :: inner.events,
    inner.assistantMessage⟩

/-! ### Observers over emitted event sequences -/

/-- Automaton step for the ordering stated by the specification: at most one
transcription (first), then deltas, then at most one title, then at most
one audio event. Phases: 0 = start, 1 = in deltas, 2 = after title,
3 = after audio. -/
def claimPhaseStep : Nat → TurnEvent → Option Nat
  | 0, .transcription _ _ => some 1
  | p, .assistantDelta _ => if p ≤ 1 then some 1 else none
  | p, .conversationTitle _ _ => if p ≤ 1 then some 2 else none
  | p, .assistantAudio _ => if p ≤ 2 then some 3 else none
  | _, _ => none

/-- Automaton step for the order the code emits: at most one transcription
(first), then deltas, then at most one audio event, then at most one title
event. Phases: 0 = start, 1 = in deltas, 2 = after audio, 3 = after
title. -/
def codePhaseStep : Nat → TurnEvent → Option Nat
  | 0, .transcription _ _ => some 1
  | p, .assistantDelta _ => if p ≤ 1 then some 1 else none
  | p, .assistantAudio _ => if p ≤ 1 then some 2 else none
  | p, .conversationTitle _ _ => if p ≤ 2 then some 3 else none
  | _, _ => none

/-- Run an ordering automaton over an event sequence. -/
def runPhases (step : Nat → TurnEvent → Option Nat) (start : Option Nat)
    (events : List TurnEvent) : Option Nat :=
  events.foldl (fun acc e => acc.bind (fun p => step p e)) start

/-- The event sequence satisfies the ordering stated by the specification. -/
def claimOrderOk (events : List TurnEvent) : Bool :=
  (runPhases claimPhaseStep (some 0) events).isSome

/-- The event sequence satisfies the ordering the code emits. -/
def codeOrderOk (events : List TurnEvent) : Bool :=
  (runPhases codePhaseStep (some 0) events).isSome

/-- The contents of the `assistant_delta` events, in emission order. -/
def deltaContents (events : List TurnEvent) : List String :=
  events.filterMap (fun e =>
    match e with
    | .assistantDelta c => some c
    | _ => none)

/-- How many `conversation_title` events the sequence holds. -/
def countTitleEvents (events : List TurnEvent) : Nat :=
  (events.filter (fun e =>
    match e with
    | .conversationTitle _ _ => true
    | _ => false)).length

/-- How many `assistant_audio` events the sequence holds. -/
def countAudioEvents (events : List TurnEvent) : Nat :=
  (events.filter (fun e =>
    match e with
    | .assistantAudio _ => true
    | _ => false)).length

/-- How many assistant-role rows the store holds. -/
def countAssistantMessages (s : Store) : Nat :=
  (s.messages.filter (fun m => m.role = "assistant")).length

/-- A turn environment used by several concrete witnesses: a two-fragment
reply, an available title proposal, and successful synthesis. -/
def envFull : TurnEnv :=
  ⟨[.message "It is", .message " sunny.", .done], some "Weather Question", true,
    some "media/audio_output/reply.wav", "media"⟩

/-- A turn environment whose generation stream closes without yielding any
fragment, while every optional follow-up (title proposal, synthesis) would
be available. -/
def envEmptyReply : TurnEnv :=
  ⟨[.done], some "A Title", true, some "media/audio_output/x.wav", "media"⟩

/-- A store holding a conversation whose history already contains an
assistant message. -/
def storeWithAssistant : Store :=
  ⟨[⟨"c4", "Named Conversation"⟩],
    [⟨1, "c4", "user", "hi", none, none⟩, ⟨2, "c4", "assistant", "yo", none, none⟩], 3⟩

/-! ### Helper lemmas -/

theorem mem_of_mem_dropWhile {α : Type} {p : α → Bool} :
    ∀ {l : List α} {c : α}, c ∈ l.dropWhile p → c ∈ l := by
  intro l
  induction l with
  | nil => intro c h; simp at h
  | cons x xs ih =>
    intro c h
    rw [List.dropWhile_cons] at h
    by_cases hp : p x = true
    · simp [hp] at h
      exact List.mem_cons_of_mem _ (ih h)
    · simp [hp] at h
      simpa using h

theorem deltaPieces_mem_ne_empty :
    ∀ (chunks : List StreamEvent) (p : String), p ∈ deltaPieces chunks → p ≠ "" := by
  intro chunks
  induction chunks with
  | nil => intro p h; simp [deltaPieces] at h
  | cons c rest ih =>
    intro p h
    cases c with
    | done => simp [deltaPieces] at h
    | message raw =>
      simp only [deltaPieces] at h
      by_cases hc : clean_llm_text raw = ""
      · rw [if_pos hc] at h
        exact ih p h
      · rw [if_neg hc] at h
        rcases List.mem_cons.mp h with h | h
        · exact h ▸ hc
        · exact ih p h

/-- C10: updating the audio path of a message whose id is absent from the
store is a silent no-op — the call completes (the embedding is total) and
every stored conversation and message is unchanged. -/
theorem setAudioPath_skip (mediaRoot : String) (messageId : Nat) (audioPath : String)
    (m : StoredMessage) (h : m.id ≠ messageId) :
    setAudioPath mediaRoot messageId audioPath m = m := by
  unfold setAudioPath
  exact if_neg h

theorem setAudioPath_fields (mediaRoot : String) (messageId : Nat) (audioPath : String)
    (m : StoredMessage) :
    (setAudioPath mediaRoot messageId audioPath m).id = m.id ∧
      (setAudioPath mediaRoot messageId audioPath m).role = m.role ∧
      (setAudioPath mediaRoot messageId audioPath m).content = m.content ∧
      (setAudioPath mediaRoot messageId audioPath m).conversationId = m.conversationId := by
  unfold setAudioPath
  split <;> exact ⟨rfl, rfl, rfl, rfl⟩

theorem map_skip_absent_id (mediaRoot : String) (messageId : Nat) (audioPath : String) :
    ∀ ms : List StoredMessage, (∀ m ∈ ms, m.id ≠ messageId) →
      ms.map (setAudioPath mediaRoot messageId audioPath) = ms := by
  intro ms
  induction ms with
  | nil => intro _; rfl
  | cons m rest ih =>
    intro h
    have hm : m.id ≠ messageId := h m (by simp)
    simp only [List.map_cons, setAudioPath_skip mediaRoot messageId audioPath m hm]
    rw [ih (fun x hx => h x (List.mem_cons_of_mem _ hx))]

theorem c10_update_missing_message_is_noop (mediaRoot : String) (s : Store) (messageId : Nat)
    (audioPath : String) (h : s.messages.all (fun m => m.id != messageId) = true) :
    update_message_audio_path mediaRoot s messageId audioPath = s := by
  rw [List.all_eq_true] at h
  unfold update_message_audio_path
  rw [map_skip_absent_id mediaRoot messageId audioPath s.messages
    (fun m hm => by simpa using h m hm)]

theorem toList_mk (l : List Char) : (String.mk l).toList = l := rfl

theorem splitWsGo_cons (cur : List Char) (c : Char) (l : List Char) :
    splitWsGo cur (c :: l) =
      if isPyWs c then
        if cur.isEmpty then splitWsGo [] l else cur.reverse :: splitWsGo [] l
      else splitWsGo (c :: cur) l := rfl

theorem splitWsGo_words_wf :
    ∀ (l cur : List Char), (∀ c ∈ cur, isPyWs c = false) →
      ∀ w ∈ splitWsGo cur l, w ≠ [] ∧ ∀ c ∈ w, isPyWs c = false := by
  intro l
  induction l with
  | nil =>
    intro cur hcur w hw
    simp only [splitWsGo] at hw
    split at hw
    · simp at hw
    · rename_i hne
      simp only [List.mem_singleton] at hw
      subst hw
      refine ⟨?_, fun c hc => hcur c (List.mem_reverse.mp hc)⟩
      simp only [ne_eq, List.reverse_eq_nil_iff]
      intro hnil
      rw [hnil] at hne
      simp at hne
  | cons x xs ih =>
    intro cur hcur w hw
    rw [splitWsGo_cons] at hw
    by_cases hx : isPyWs x = true
    · rw [if_pos hx] at hw
      by_cases hce : cur.isEmpty = true
      · rw [if_pos hce] at hw
        exact ih [] (by simp) w hw
      · rw [if_neg hce] at hw
        rcases List.mem_cons.mp hw with hw | hw
        · subst hw
          refine ⟨?_, fun c hc => hcur c (List.mem_reverse.mp hc)⟩
          simp only [ne_eq, List.reverse_eq_nil_iff]
          intro hnil
          rw [hnil] at hce
          simp at hce
        · exact ih [] (by simp) w hw
    · rw [if_neg hx] at hw
      refine ih (x :: cur) ?_ w hw
      intro c hc
      rcases List.mem_cons.mp hc with hc | hc
      · subst hc; simpa using hx
      · exact hcur c hc

theorem splitWsGo_append_word :
    ∀ (w cur rest : List Char), (∀ c ∈ w, isPyWs c = false) →
      splitWsGo cur (w ++ rest) = splitWsGo (w.reverse ++ cur) rest := by
  intro w
  induction w with
  | nil => intro cur rest _; simp
  | cons c w21 ih =>
    intro cur rest h
    have hc : isPyWs c = false := h c (by simp)
    rw [List.cons_append, splitWsGo_cons, if_neg (by simp [hc])]
    rw [ih (c :: cur) rest (fun d hd => h d (List.mem_cons_of_mem _ hd))]
    simp [List.reverse_cons, List.append_assoc]

theorem pySplitWs_joinWords :
    ∀ ws : List (List Char), (∀ w ∈ ws, w ≠ [] ∧ ∀ c ∈ w, isPyWs c = false) →
      pySplitWs (joinWords ws) = ws := by
  intro ws
  induction ws with
  | nil => intro _; rfl
  | cons w tail ih =>
    intro h
    have hw := h w (by simp)
    have hwrev : w.reverse.isEmpty ≠ true := by
      intro hrev
      have hnil : w.reverse = [] := by
        cases hr : w.reverse with
        | nil => rfl
        | cons a l => rw [hr] at hrev; simp at hrev
      have h2 : w = [] := by
        have := congrArg List.reverse hnil
        simpa using this
      exact hw.1 h2
    cases tail with
    | nil =>
      show splitWsGo [] (joinWords [w]) = [w]
      have hjw : joinWords [w] = w := rfl
      rw [hjw]
      have happ : splitWsGo [] (w ++ ([] : List Char)) = splitWsGo (w.reverse ++ []) [] :=
        splitWsGo_append_word w [] [] hw.2
      rw [List.append_nil, List.append_nil] at happ
      rw [happ]
      simp only [splitWsGo]
      rw [if_neg hwrev, List.reverse_reverse]
    | cons w2 rest =>
      show splitWsGo [] (joinWords (w :: w2 :: rest)) = w :: w2 :: rest
      have hjw : joinWords (w :: w2 :: rest) = w ++ ' ' :: joinWords (w2 :: rest) := rfl
      rw [hjw]
      have happ := splitWsGo_append_word w [] (' ' :: joinWords (w2 :: rest)) hw.2
      rw [List.append_nil] at happ
      rw [happ, splitWsGo_cons, if_pos (by decide), if_neg hwrev, List.reverse_reverse]
      have htail := ih (fun x hx => h x (List.mem_cons_of_mem _ hx))
      rw [show pySplitWs (joinWords (w2 :: rest)) = splitWsGo [] (joinWords (w2 :: rest))
        from rfl] at htail
      rw [htail]

theorem finalizeTitleWords_word_bounds (l : List Char) (t : String)
    (h : finalizeTitleWords l = some t) :
    2 ≤ (pySplitWs t.toList).length ∧ (pySplitWs t.toList).length ≤ 5 := by
  unfold finalizeTitleWords at h
  split at h
  · simp at h
  · split at h
    · simp at h
    · rename_i hlt
      split at h
      · rename_i hgt
        injection h with h
        subst h
        have hwords : ∀ w ∈ (pySplitWs l).take 5, w ≠ [] ∧ ∀ c ∈ w, isPyWs c = false :=
          fun w hw => splitWsGo_words_wf l [] (by simp) w (List.mem_of_mem_take hw)
        rw [toList_mk, pySplitWs_joinWords _ hwords]
        have hlen : ((pySplitWs l).take 5).length = 5 := by
          rw [List.length_take]
          omega
        omega
      · rename_i hgt
        injection h with h
        subst h
        rw [toList_mk]
        omega

theorem frameGenGo_nil (fb : Nat) : ∀ fuel : Nat, frameGenGo fb fuel [] = [] := by
  intro fuel
  cases fuel <;> rfl

/-- C7 counterexample: a one-byte buffer is strictly shorter than the
960-byte frame of the default configuration (16 kHz, 30 ms), yet the
trimmer does not return it unmodified — the partial frame is handed to the
classifier, and a non-speech classification yields the empty buffer. -/
theorem c7_short_buffer_counterexample :
    frameBytes 16000 30 = 960 ∧
      ([0] : List Nat).length < 960 ∧
      trim_silence (fun _ => false) 960 [0] ≠ [0] ∧
      trim_silence (fun _ => false) 960 [0] = [] := by decide

/-- C7 amended: a buffer strictly shorter than one frame is returned
unmodified only when it is empty or when the classifier marks the single
partial frame as speech; a non-speech classification of that partial frame
yields the empty buffer instead. -/
theorem c7_short_buffer_single_frame (isSpeech : List Nat → Bool) (fb : Nat) (pcm : List Nat)
    (_hfb : 0 < fb) (hlen : pcm.length < fb) :
    trim_silence isSpeech fb pcm =
      if pcm.isEmpty then pcm else if isSpeech pcm then pcm else [] := by
  cases pcm with
  | nil => rfl
  | cons b bs =>
    have hle : (b :: bs).length ≤ fb := Nat.le_of_lt hlen
    have htake : (b :: bs).take fb = b :: bs := List.take_of_length_le hle
    have hdrop : (b :: bs).drop fb = [] := List.drop_eq_nil_of_le hle
    have hstep : frameGenGo fb (bs.length + 1) (b :: bs) =
        (b :: bs).take fb :: frameGenGo fb bs.length ((b :: bs).drop fb) := rfl
    have hframes : frame_generator fb (b :: bs) = [b :: bs] := by
      unfold frame_generator
      simp only [List.length_cons]
      rw [hstep, htake, hdrop, frameGenGo_nil]
    have hmain : trim_silence isSpeech fb (b :: bs) =
        if isSpeech (b :: bs) then b :: bs else [] := by
      simp only [trim_silence, hframes, List.isEmpty_cons, List.map_cons, List.map_nil]
      cases hsp : isSpeech (b :: bs) with
      | false => simp [firstSpeechIdx, hsp]
      | true => simp [firstSpeechIdx, lastSpeechIdx, hsp, htake]
    rw [hmain]
    simp

/-- C7 witness: the amended statement applied to a concrete two-byte buffer
with an always-speech classifier and the default 960-byte frame. -/
theorem c7_short_buffer_single_frame_witness :
    trim_silence (fun _ => true) 960 [0, 0] =
      if ([0, 0] : List Nat).isEmpty then [0, 0]
      else if (fun _ => true) [0, 0] then [0, 0] else [] :=
  c7_short_buffer_single_frame (fun _ => true) 960 [0, 0] (by decide) (by decide)

/-- C6 counterexample: a whitespace-only (hence non-empty) user input
short-circuits the title lookup without contacting the backend, refuting
the claim that the short-circuit happens exactly when an input string is
empty. -/
theorem c6_shortcircuit_counterexample :
    (get_conversation_title " " "hi" HttpOutcome.netError HttpOutcome.netError
        HttpOutcome.netError).contactedBackend = false ∧
      (" " : String) ≠ "" ∧ ("hi" : String) ≠ "" := by decide

/-- C6 amended: the title inference operation never propagates an attempt
failure (a failed request maps to no result for that attempt, and a run in
which all three attempts fail returns no title), and it short-circuits
without contacting the backend exactly when either input is empty after
stripping whitespace. -/
theorem c6_title_inference_total (u a : String) (respA : HttpOutcome OpenAITitleBody)
    (respB : HttpOutcome GenerateTitleBody) (respC : HttpOutcome ChatTitleBody) :
    ((get_conversation_title u a respA respB respC).contactedBackend = false ↔
        (pyStripStr u = "" ∨ pyStripStr a = "")) ∧
      (make_title_request (HttpOutcome.netError : HttpOutcome OpenAITitleBody) = none ∧
        make_title_request (HttpOutcome.netError : HttpOutcome GenerateTitleBody) = none ∧
        make_title_request (HttpOutcome.netError : HttpOutcome ChatTitleBody) = none) ∧
      (get_conversation_title u a HttpOutcome.netError HttpOutcome.netError
          HttpOutcome.netError).title = none := by
  refine ⟨?_, ⟨rfl, rfl, rfl⟩, ?_⟩
  · by_cases hu : pyStripStr u = "" <;> by_cases ha : pyStripStr a = "" <;>
      simp [get_conversation_title, hu, ha]
  · by_cases hu : pyStripStr u = "" <;> by_cases ha : pyStripStr a = "" <;>
      simp [get_conversation_title, hu, ha, request_openai_style_title,
        request_generate_title, request_chat_title, make_title_request]

/-- C2 counterexample: the primary chat-completions protocol yields one
fragment and then fails mid-stream; the code still attempts the fallback
protocol and appends its events, contradicting the claim that a failure
after the first yielded fragment leads to no fallback attempt. -/
theorem c2_midstream_fallback_counterexample :
    (stream_chat ⟨true, [SSELine.delta "Hi"], true⟩
          ⟨true, [GenerateLine.item (some " there") true], false⟩).usedFallback = true ∧
      (stream_openai ⟨true, [SSELine.delta "Hi"], true⟩).chunks = [StreamEvent.message "Hi"] ∧
      (stream_chat ⟨true, [SSELine.delta "Hi"], true⟩
          ⟨true, [GenerateLine.item (some " there") true], false⟩).chunks =
        [StreamEvent.message "Hi", StreamEvent.message " there", StreamEvent.done] := by decide

/-- C2 amended: the fallback line-delimited protocol is attempted exactly
when the primary chat-completions protocol terminates by raising — at any
point of its iteration, regardless of how many fragments it has already
yielded — and in that case the fallback events are appended after the
already-yielded primary events. -/
theorem c2_fallback_on_any_primary_error (primary : HttpStream SSELine)
    (fallback : HttpStream GenerateLine) :
    (stream_chat primary fallback).usedFallback = (stream_openai primary).errored ∧
      (stream_chat primary fallback).chunks =
        (stream_openai primary).chunks ++
          (if (stream_openai primary).errored then (stream_llm fallback).chunks else []) := by
  unfold stream_chat
  by_cases h : (stream_openai primary).errored = true
  · simp [h]
  · simp [h]

theorem splitLines_cons (x : Char) (l : List Char) :
    splitLines (x :: l) =
      if x = '\n' then [] :: splitLines l
      else
        match splitLines l with
        | [] => [[x]]
        | w :: ws => (x :: w) :: ws := rfl

theorem mem_of_mem_splitLines :
    ∀ (l w : List Char), w ∈ splitLines l → ∀ c ∈ w, c ∈ l := by
  intro l
  induction l with
  | nil =>
    intro w hw c hc
    simp only [splitLines, List.mem_singleton] at hw
    subst hw
    simp at hc
  | cons x rest ih =>
    intro w hw c hc
    rw [splitLines_cons] at hw
    by_cases hx : x = '\n'
    · rw [if_pos hx] at hw
      rcases List.mem_cons.mp hw with hw | hw
      · subst hw; simp at hc
      · exact List.mem_cons_of_mem _ (ih w hw c hc)
    · rw [if_neg hx] at hw
      cases hsp : splitLines rest with
      | nil =>
        rw [hsp] at hw
        simp only [List.mem_singleton] at hw
        subst hw
        simp only [List.mem_singleton] at hc
        subst hc
        simp
      | cons w2 ws =>
        rw [hsp] at hw
        rcases List.mem_cons.mp hw with hw | hw
        · subst hw
          rcases List.mem_cons.mp hc with hc | hc
          · subst hc; simp
          · refine List.mem_cons_of_mem _ (ih w2 ?_ c hc)
            rw [hsp]; simp
        · refine List.mem_cons_of_mem _ (ih w ?_ c hc)
          rw [hsp]
          exact List.mem_cons_of_mem _ hw

theorem mem_of_mem_joinLines :
    ∀ (ws : List (List Char)) (c : Char), c ∈ joinLines ws →
      c = '\n' ∨ ∃ w, w ∈ ws ∧ c ∈ w := by
  intro ws
  induction ws with
  | nil => intro c hc; simp [joinLines] at hc
  | cons w tail ih =>
    intro c hc
    cases tail with
    | nil =>
      right
      exact ⟨w, by simp, hc⟩
    | cons w2 rest =>
      have hjw : joinLines (w :: w2 :: rest) = w ++ '\n' :: joinLines (w2 :: rest) := rfl
      rw [hjw] at hc
      rcases List.mem_append.mp hc with hc | hc
      · exact Or.inr ⟨w, by simp, hc⟩
      · rcases List.mem_cons.mp hc with hc | hc
        · exact Or.inl hc
        · rcases ih c hc with h | ⟨w3, hw3, hcw⟩
          · exact Or.inl h
          · exact Or.inr ⟨w3, List.mem_cons_of_mem _ hw3, hcw⟩

theorem cleanLineStep_some (line w : List Char) (h : cleanLineStep line = some w) :
    w = [] ∨ w = line := by
  simp only [cleanLineStep] at h
  split at h
  · left; injection h with h; exact h.symm
  · split at h
    · simp at h
    · right; injection h with h; exact h.symm

theorem clean_llm_text_no_cr (s : String) : '\r' ∉ (clean_llm_text s).toList := by
  intro hmem
  by_cases hs : s = ""
  · rw [hs] at hmem
    simp [clean_llm_text] at hmem
  · simp only [clean_llm_text, if_neg hs] at hmem
    rw [toList_mk] at hmem
    have hjoined : '\r' ∉ joinLines
        ((splitLines ((stripControlTokens s.toList).filter (fun c => c ≠ '\r'))).filterMap
          cleanLineStep) := by
      intro hj
      rcases mem_of_mem_joinLines _ _ hj with h | ⟨w, hw, hcw⟩
      · exact absurd h (by decide)
      · rcases List.mem_filterMap.mp hw with ⟨line, hline, hstep⟩
        rcases cleanLineStep_some line w hstep with hw0 | hwl
        · subst hw0; simp at hcw
        · subst hwl
          have hcl := mem_of_mem_splitLines _ _ hline _ hcw
          rw [List.mem_filter] at hcl
          simp at hcl
    split at hmem
    · exact hjoined (List.mem_of_mem_drop (mem_of_mem_dropWhile hmem))
    · exact hjoined hmem

/-- C8: the per-fragment text sanitizer removes control-token bracketed
substrings exactly (surrounding text intact), removes carriage returns
(provably for every input), drops commentary role-prefix lines while
preserving blank lines, and strips a leading literal `assistant` role echo
together with the following colon/space. -/
theorem c8_clean_llm_text_behaviour :
    clean_llm_text "Hello <|channel|>world<|end|>!" = "Hello world!" ∧
      clean_llm_text "line one\r\ncommentary to= audience\r\n\r\nline two" =
        "line one\n\nline two" ∧
      clean_llm_text "assistantcommentary to=all text\nreal reply" = "real reply" ∧
      clean_llm_text "assistant: Hello there" = "Hello there" ∧
      ∀ s, '\r' ∉ (clean_llm_text s).toList :=
  ⟨by decide, by decide, by decide, by decide, clean_llm_text_no_cr⟩

theorem runPhases_cons (step : Nat → TurnEvent → Option Nat) (st : Option Nat)
    (e : TurnEvent) (es : List TurnEvent) :
    runPhases step st (e :: es) = runPhases step (st.bind (fun p => step p e)) es := rfl

theorem runPhases_append (step : Nat → TurnEvent → Option Nat) (st : Option Nat)
    (l1 l2 : List TurnEvent) :
    runPhases step st (l1 ++ l2) = runPhases step (runPhases step st l1) l2 := by
  simp [runPhases, List.foldl_append]

theorem codePhaseStep_delta (p : Nat) (c : String) :
    codePhaseStep p (TurnEvent.assistantDelta c) = if p ≤ 1 then some 1 else none := by
  cases p <;> rfl

theorem codePhaseStep_audio (p : Nat) (ap : String) :
    codePhaseStep p (TurnEvent.assistantAudio ap) = if p ≤ 1 then some 2 else none := by
  cases p <;> rfl

theorem codePhaseStep_title (p : Nat) (t cid : String) :
    codePhaseStep p (TurnEvent.conversationTitle t cid) = if p ≤ 2 then some 3 else none := by
  cases p <;> rfl

theorem runPhases_empty (step : Nat → TurnEvent → Option Nat) (st : Option Nat) :
    runPhases step st [] = st := rfl

theorem runPhases_single (step : Nat → TurnEvent → Option Nat) (q : Nat) (e : TurnEvent) :
    runPhases step (some q) [e] = step q e := rfl

theorem code_run_deltas (ps : List String) :
    ∀ p : Nat, p ≤ 1 →
      ∃ q, q ≤ 1 ∧
        runPhases codePhaseStep (some p) (ps.map TurnEvent.assistantDelta) = some q := by
  induction ps with
  | nil => intro p hp; exact ⟨p, hp, rfl⟩
  | cons s rest ih =>
    intro p hp
    rw [List.map_cons, runPhases_cons]
    have hstep : (some p).bind (fun a => codePhaseStep a (TurnEvent.assistantDelta s))
        = some 1 := by
      show codePhaseStep p (TurnEvent.assistantDelta s) = some 1
      rw [codePhaseStep_delta, if_pos hp]
    rw [hstep]
    exact ih 1 (Nat.le_refl 1)

theorem code_run_tail (ps : List String) (a : Option (String × Nat)) (cid : String)
    (t : Option String) (p : Nat) (hp : p ≤ 1) :
    (runPhases codePhaseStep (some p)
        (ps.map TurnEvent.assistantDelta ++ audioEventsOf a ++ titleEventsOf cid t)).isSome
      = true := by
  obtain ⟨q, hq, hrun⟩ := code_run_deltas ps p hp
  rw [runPhases_append, runPhases_append, hrun]
  cases a with
  | none =>
    rw [audioEventsOf, runPhases_empty]
    cases t with
    | none => rw [titleEventsOf, runPhases_empty]; rfl
    | some tt =>
      rw [titleEventsOf, runPhases_single, codePhaseStep_title, if_pos (show q ≤ 2 by omega)]
      rfl
  | some pr =>
    rw [audioEventsOf, runPhases_single, codePhaseStep_audio, if_pos hq]
    cases t with
    | none => rw [titleEventsOf, runPhases_empty]; rfl
    | some tt =>
      rw [titleEventsOf, runPhases_single, codePhaseStep_title,
        if_pos (show (2 : Nat) ≤ 2 by omega)]
      rfl

theorem deltaContents_tail (ps : List String) (a : Option (String × Nat)) (cid : String)
    (t : Option String) :
    deltaContents (ps.map TurnEvent.assistantDelta ++ audioEventsOf a ++ titleEventsOf cid t)
      = ps := by
  have hd : deltaContents (ps.map TurnEvent.assistantDelta) = ps := by
    induction ps with
    | nil => rfl
    | cons s rest ih =>
      simp only [List.map_cons, deltaContents, List.filterMap_cons] at ih ⊢
      rw [ih]
  cases a <;> cases t <;>
    simp [deltaContents, List.filterMap_append, audioEventsOf, titleEventsOf] <;>
    simpa [deltaContents] using hd

/-- C1 counterexample: a concrete first text turn on a fresh conversation
in which both a title and an audio event are emitted; the code emits the
`assistant_audio` event before the `conversation_title` event, so the
sequence violates the claimed order (deltas, then title, then audio). -/
theorem c1_order_counterexample :
    claimOrderOk (handle_text_message envFull emptyStore "c1" "What is the weather?"
        none none).events = false ∧
      countTitleEvents (handle_text_message envFull emptyStore "c1" "What is the weather?"
        none none).events = 1 ∧
      countAudioEvents (handle_text_message envFull emptyStore "c1" "What is the weather?"
        none none).events = 1 := by decide

/-- C1 amended: for every turn, the emitted sequence is: at most one
transcription event (voice turns only, first), then zero or more
assistant_delta events in generation order (their contents are exactly the
reply buffer), then at most one assistant_audio event, then at most one
conversation_title event — title and audio events may be absent when their
preconditions are not met. -/
theorem c1_event_order (env : TurnEnv) (store : Store)
    (conversationId text transcript audioPathArg : String) (img sap uap : Option String) :
    codeOrderOk (handle_text_message env store conversationId text img uap).events = true ∧
      codeOrderOk (handle_voice_message env store conversationId transcript audioPathArg
        img sap).events = true ∧
      deltaContents (handle_text_message env store conversationId text img uap).events
        = deltaPieces env.chunks := by
  refine ⟨?_, ?_, ?_⟩
  · simp only [codeOrderOk, handle_text_message]
    exact code_run_tail _ _ _ _ 0 (by omega)
  · simp only [codeOrderOk, handle_voice_message, handle_text_message]
    rw [runPhases_cons]
    exact code_run_tail _ _ _ _ 1 (by omega)
  · simp only [handle_text_message]
    exact deltaContents_tail _ _ _ _

theorem add_message_messages (root : String) (s : Store) (cid role content : String)
    (a i : Option String) :
    (add_message root s cid role content a i).1.messages
      = s.messages ++ [(add_message root s cid role content a i).2] := by
  simp only [add_message]
  split <;> rfl

theorem add_message_snd (root : String) (s : Store) (cid role content : String)
    (a i : Option String) :
    (add_message root s cid role content a i).2
      = ⟨s.nextMessageId, cid, role, content, normalize_media_path root a,
          normalize_media_path root i⟩ := by
  simp only [add_message]
  split <;> rfl

theorem countAssistant_update (root : String) (mid : Nat) (p : String) (s : Store) :
    countAssistantMessages (update_message_audio_path root s mid p)
      = countAssistantMessages s := by
  unfold countAssistantMessages update_message_audio_path
  simp only
  induction s.messages with
  | nil => rfl
  | cons m l ih =>
    have hrole : (setAudioPath root mid p m).role = m.role :=
      (setAudioPath_fields root mid p m).2.1
    simp only [List.map_cons, List.filter_cons, hrole]
    by_cases hm : m.role = "assistant"
    · simpa [hm] using ih
    · simpa [hm] using ih

theorem countAssistant_add_user (root : String) (s : Store) (cid text : String)
    (i : Option String) :
    countAssistantMessages (add_message root s cid "user" text none i).1
      = countAssistantMessages s := by
  unfold countAssistantMessages
  rw [add_message_messages, add_message_snd]
  simp [List.filter_append]

theorem countAssistant_userStage (env : TurnEnv) (store : Store) (cid text : String)
    (img uap : Option String) :
    countAssistantMessages (userStage env store cid text img uap).1
      = countAssistantMessages store := by
  unfold userStage
  cases uap with
  | none => exact countAssistant_add_user env.mediaRoot store cid text img
  | some p =>
    dsimp only
    rw [countAssistant_update, countAssistant_add_user]

theorem mem_update_preserved (root : String) (mid : Nat) (p : String) {s : Store}
    {m : StoredMessage} (hm : m ∈ s.messages) :
    ∃ m2 ∈ (update_message_audio_path root s mid p).messages,
      m2.id = m.id ∧ m2.role = m.role ∧ m2.content = m.content ∧
        m2.conversationId = m.conversationId :=
  ⟨setAudioPath root mid p m, List.mem_map_of_mem _ hm,
    (setAudioPath_fields root mid p m).1, (setAudioPath_fields root mid p m).2.1,
    (setAudioPath_fields root mid p m).2.2.1, (setAudioPath_fields root mid p m).2.2.2⟩

theorem mem_userStage (env : TurnEnv) (store : Store) (cid text : String)
    (img uap : Option String) {m : StoredMessage} (hm : m ∈ store.messages) :
    ∃ m2 ∈ (userStage env store cid text img uap).1.messages,
      m2.role = m.role ∧ m2.conversationId = m.conversationId := by
  unfold userStage
  have hmem : m ∈ (add_message env.mediaRoot store cid "user" text none img).1.messages := by
    rw [add_message_messages]
    exact List.mem_append_left _ hm
  cases uap with
  | none => exact ⟨m, hmem, rfl, rfl⟩
  | some p =>
    dsimp only
    obtain ⟨m2, hm2, _, hrole, _, hconv⟩ :=
      mem_update_preserved env.mediaRoot
        (add_message env.mediaRoot store cid "user" text none img).2.id p hmem
    exact ⟨m2, hm2, hrole, hconv⟩

theorem maybe_assign_messages_eq (s : Store) (cid : String) (pm : List StoredMessage)
    (um : StoredMessage) (atext : String) (tp : Option String) :
    (maybe_assign_conversation_title s cid pm um atext tp).1.messages = s.messages := by
  simp only [maybe_assign_conversation_title, rename_conversation]
  repeat' split
  all_goals rfl

theorem maybe_assign_skips_prior_assistant (s : Store) (cid : String)
    (pm : List StoredMessage) (um : StoredMessage) (atext : String) (tp : Option String)
    (h : pm.any (fun m => m.role = "assistant") = true) :
    maybe_assign_conversation_title s cid pm um atext tp = (s, none) := by
  unfold maybe_assign_conversation_title
  split
  · rfl
  · simp [h]

theorem maybe_assign_skips_named (s : Store) (cid : String) (pm : List StoredMessage)
    (um : StoredMessage) (atext : String) (tp : Option String) (conv : StoredConversation)
    (h1 : s.conversations.find? (fun c => c.id = cid) = some conv)
    (h2 : conv.title ≠ "New Conversation") :
    maybe_assign_conversation_title s cid pm um atext tp = (s, none) := by
  unfold maybe_assign_conversation_title
  split
  · rfl
  · split
    · rfl
    · rw [h1]
      dsimp only
      rw [if_pos h2]

theorem update_conversations_eq (root : String) (s : Store) (mid : Nat) (p : String) :
    (update_message_audio_path root s mid p).conversations = s.conversations := rfl

theorem add_message_conversations_of_mem (root : String) (s : Store)
    (cid role content : String) (a i : Option String)
    (h : s.conversations.any (fun c => c.id = cid) = true) :
    (add_message root s cid role content a i).1.conversations = s.conversations := by
  simp only [add_message]
  rw [if_pos h]

theorem userStage_conversations_of_mem (env : TurnEnv) (store : Store) (cid text : String)
    (img uap : Option String) (h : store.conversations.any (fun c => c.id = cid) = true) :
    (userStage env store cid text img uap).1.conversations = store.conversations := by
  unfold userStage
  cases uap with
  | none => exact add_message_conversations_of_mem env.mediaRoot store cid "user" text none img h
  | some p =>
    dsimp only
    rw [update_conversations_eq,
      add_message_conversations_of_mem env.mediaRoot store cid "user" text none img h]

theorem any_of_find?_eq_some {l : List StoredConversation} {p : StoredConversation → Bool}
    {conv : StoredConversation} (h : l.find? p = some conv) : l.any p = true := by
  rw [List.any_eq_true]
  exact ⟨conv, List.mem_of_find?_eq_some h, List.find?_some h⟩

theorem assistantStage_title_none_named (env : TurnEnv) (s2 : Store) (cid : String)
    (msgs : List StoredMessage) (um : StoredMessage) (buffer : List String)
    (conv : StoredConversation)
    (h1 : s2.conversations.find? (fun c => c.id = cid) = some conv)
    (h2 : conv.title ≠ "New Conversation") :
    (assistantStage env s2 cid msgs um buffer).2.2 = none := by
  unfold assistantStage
  split
  · rfl
  · dsimp only
    have hconvs : (add_message env.mediaRoot s2 cid "assistant" (String.join buffer)
        none none).1.conversations = s2.conversations :=
      add_message_conversations_of_mem env.mediaRoot s2 cid "assistant" (String.join buffer)
        none none (any_of_find?_eq_some h1)
    rw [maybe_assign_skips_named _ cid msgs um (String.join buffer) env.titleProposal conv
      (by rw [hconvs]; exact h1) h2]

theorem assistantStage_title_none (env : TurnEnv) (s2 : Store) (cid : String)
    (msgs : List StoredMessage) (um : StoredMessage) (buffer : List String)
    (h : msgs.any (fun m => m.role = "assistant") = true) :
    (assistantStage env s2 cid msgs um buffer).2.2 = none := by
  unfold assistantStage
  split
  · rfl
  · dsimp only
    rw [maybe_assign_skips_prior_assistant _ _ _ _ _ _ h]

theorem assistantStage_msg (env : TurnEnv) (s2 : Store) (cid : String)
    (msgs : List StoredMessage) (um : StoredMessage) (buffer : List String)
    (m : StoredMessage) (h : (assistantStage env s2 cid msgs um buffer).2.1 = some m) :
    m = ⟨s2.nextMessageId, cid, "assistant", String.join buffer, none, none⟩ ∧
      m ∈ (assistantStage env s2 cid msgs um buffer).1.messages := by
  unfold assistantStage at h ⊢
  split at h
  · simp at h
  · rename_i hb
    dsimp only at h
    injection h with h
    rw [if_neg hb]
    constructor
    · rw [← h, add_message_snd]
      rfl
    · dsimp only
      rw [maybe_assign_messages_eq, add_message_messages, ← h]
      exact List.mem_append_right _ (List.mem_singleton_self _)

theorem audioAttachment_none (env : TurnEnv) (x : Option String) :
    audioAttachment env x none = none := by
  cases x <;> rfl

theorem countTitleEvents_append (l1 l2 : List TurnEvent) :
    countTitleEvents (l1 ++ l2) = countTitleEvents l1 + countTitleEvents l2 := by
  simp [countTitleEvents, List.filter_append]

theorem countTitleEvents_deltas (ps : List String) :
    countTitleEvents (ps.map TurnEvent.assistantDelta) = 0 := by
  induction ps with
  | nil => rfl
  | cons s rest ih => exact ih

theorem countTitleEvents_no_title (ps : List String) (a : Option (String × Nat))
    (cid : String) :
    countTitleEvents (ps.map TurnEvent.assistantDelta ++ audioEventsOf a ++
      titleEventsOf cid none) = 0 := by
  cases a <;>
    rw [countTitleEvents_append, countTitleEvents_append, countTitleEvents_deltas] <;> rfl

/-- C3: a turn whose generation stream contributes no cleaned fragment
(empty reply buffer) completes with no events at all — in particular no
`conversation_title` and no `assistant_audio` event — creates no assistant
message, and leaves the number of stored assistant-role messages
unchanged; the run is a value of the total embedding, i.e. error-free. -/
theorem c3_empty_reply_skips_all (env : TurnEnv) (store : Store) (cid text : String)
    (img uap : Option String) (h : deltaPieces env.chunks = []) :
    (handle_text_message env store cid text img uap).events = [] ∧
      (handle_text_message env store cid text img uap).assistantMessage = none ∧
      countAssistantMessages (handle_text_message env store cid text img uap).store
        = countAssistantMessages store := by
  refine ⟨?_, ?_, ?_⟩ <;>
    simp only [handle_text_message, h, assistantStage, List.isEmpty_nil, if_true,
      audioAttachment_none, audioEventsOf, titleEventsOf, List.map_nil, List.nil_append,
      List.append_nil]
  exact countAssistant_userStage env store cid text img uap

/-- C3 witness: a concrete turn whose stream closes immediately. -/
theorem c3_empty_reply_skips_all_witness :
    (handle_text_message envEmptyReply emptyStore "c3" "hello" none none).events = [] ∧
      (handle_text_message envEmptyReply emptyStore "c3" "hello" none none).assistantMessage
        = none ∧
      countAssistantMessages
          (handle_text_message envEmptyReply emptyStore "c3" "hello" none none).store
        = countAssistantMessages emptyStore :=
  c3_empty_reply_skips_all envEmptyReply emptyStore "c3" "hello" none none (by decide)

/-- C4: when the loaded history of the conversation already stores an
assistant-role message, or when the conversation exists with a title other
than the placeholder `New Conversation`, no `conversation_title` event is
emitted by a text or voice turn, whatever the title backend would propose
(the environment, including the title proposal, is universally
quantified). -/
theorem c4_no_retitle_after_assistant (env : TurnEnv) (store : Store)
    (cid text transcript apArg : String) (img sap uap : Option String)
    (conv : StoredConversation)
    (h : store.messages.any
        (fun m => m.conversationId = cid && m.role = "assistant") = true
      ∨ (store.conversations.find? (fun c => c.id = cid) = some conv
          ∧ conv.title ≠ "New Conversation")) :
    countTitleEvents (handle_text_message env store cid text img uap).events = 0 ∧
      countTitleEvents
        (handle_voice_message env store cid transcript apArg img sap).events = 0 := by
  have key : ∀ (text2 : String) (uap2 : Option String),
      countTitleEvents (handle_text_message env store cid text2 img uap2).events = 0 := by
    intro text2 uap2
    rcases h with h | ⟨hf, ht⟩
    · rw [List.any_eq_true] at h
      obtain ⟨m, hm, hprops⟩ := h
      rw [Bool.and_eq_true, decide_eq_true_eq, decide_eq_true_eq] at hprops
      obtain ⟨hconv, hrole⟩ := hprops
      obtain ⟨m2, hm2, hrole2, hconv2⟩ := mem_userStage env store cid text2 img uap2 hm
      have hload : (load_messages (userStage env store cid text2 img uap2).1 cid).any
          (fun mm => mm.role = "assistant") = true := by
        rw [List.any_eq_true]
        refine ⟨m2, ?_, ?_⟩
        · unfold load_messages
          rw [List.mem_filter]
          exact ⟨hm2, by simp [hconv2, hconv]⟩
        · simp [hrole2, hrole]
      simp only [handle_text_message]
      rw [assistantStage_title_none _ _ _ _ _ _ hload]
      exact countTitleEvents_no_title _ _ _
    · have hup : (userStage env store cid text2 img uap2).1.conversations
          = store.conversations :=
        userStage_conversations_of_mem env store cid text2 img uap2
          (any_of_find?_eq_some hf)
      simp only [handle_text_message]
      rw [assistantStage_title_none_named _ _ _ _ _ _ conv (by rw [hup]; exact hf) ht]
      exact countTitleEvents_no_title _ _ _
  refine ⟨key text uap, ?_⟩
  simp only [handle_voice_message]
  exact key transcript sap

/-- C4 witness: a second text turn and a second voice turn on a
conversation that already holds an assistant message (and is already
renamed), with a backend that would return a title. -/
theorem c4_no_retitle_after_assistant_witness :
    countTitleEvents
        (handle_text_message envFull storeWithAssistant "c4" "again" none none).events = 0 ∧
      countTitleEvents
        (handle_voice_message envFull storeWithAssistant "c4" "again" "a.wav"
          none none).events = 0 :=
  c4_no_retitle_after_assistant envFull storeWithAssistant "c4" "again" "again" "a.wav"
    none none none ⟨"c4", "Named Conversation"⟩ (by decide)

/-- C9: when an assistant message is created for a turn, its persisted text
equals the concatenation, in emission order, of the `assistant_delta`
contents of that turn, every emitted delta content is non-empty, and a row
with the same id, content and the assistant role is present in the final
store. -/
theorem c9_persisted_equals_deltas (env : TurnEnv) (store : Store) (cid text : String)
    (img uap : Option String) (m : StoredMessage)
    (h : (handle_text_message env store cid text img uap).assistantMessage = some m) :
    m.content
        = String.join (deltaContents (handle_text_message env store cid text img uap).events) ∧
      (deltaContents (handle_text_message env store cid text img uap).events).all
        (fun c => c != "") = true ∧
      (handle_text_message env store cid text img uap).store.messages.any
        (fun m2 => m2.id = m.id && m2.content = m.content && m2.role = "assistant")
        = true := by
  have hdc : deltaContents (handle_text_message env store cid text img uap).events
      = deltaPieces env.chunks := by
    simp only [handle_text_message]
    exact deltaContents_tail _ _ _ _
  simp only [handle_text_message] at h
  obtain ⟨hrec, hmem⟩ := assistantStage_msg _ _ _ _ _ _ _ h
  refine ⟨?_, ?_, ?_⟩
  · rw [hdc, hrec]
  · rw [hdc, List.all_eq_true]
    intro c hc
    have hne := deltaPieces_mem_ne_empty env.chunks c hc
    simpa using hne
  · rw [List.any_eq_true]
    simp only [handle_text_message]
    cases haa : audioAttachment env
        (synthesize_speech env.enableVoiceOutput (String.join (deltaPieces env.chunks))
          env.kokoroResult)
        ((assistantStage env (userStage env store cid text img uap).1 cid
          (load_messages (userStage env store cid text img uap).1 cid)
          (userStage env store cid text img uap).2 (deltaPieces env.chunks)).2.1) with
    | none =>
      refine ⟨m, hmem, ?_⟩
      have hrole : m.role = "assistant" := by rw [hrec]
      simp [hrole]
    | some pr =>
      obtain ⟨m2, hm2, hid, hrole2, hcont, _⟩ :=
        mem_update_preserved env.mediaRoot pr.2 pr.1 hmem
      refine ⟨m2, hm2, ?_⟩
      have hrole : m.role = "assistant" := by rw [hrec]
      simp [hid, hcont, hrole2, hrole]

/-- C9 witness: the concrete two-fragment turn. -/
theorem c9_persisted_equals_deltas_witness :
    (⟨2, "c1", "assistant", "It is sunny.", none, none⟩ : StoredMessage).content
        = String.join (deltaContents (handle_text_message envFull emptyStore "c1"
            "What is the weather?" none none).events) ∧
      (deltaContents (handle_text_message envFull emptyStore "c1"
          "What is the weather?" none none).events).all (fun c => c != "") = true ∧
      (handle_text_message envFull emptyStore "c1"
          "What is the weather?" none none).store.messages.any
        (fun m2 => m2.id = (2 : Nat) && m2.content = "It is sunny."
          && m2.role = "assistant") = true := by
  have := c9_persisted_equals_deltas envFull emptyStore "c1" "What is the weather?" none none
    ⟨2, "c1", "assistant", "It is sunny.", none, none⟩ (by decide)
  exact this

/-- C5: title sanitization strips a leading label such as `Title:` or
`Conversation:` before a colon, strips surrounding straight and typographic
quotes, collapses internal whitespace and line breaks to single spaces,
strips trailing punctuation, returns no title when fewer than 2 words
remain, and truncates to the first 5 words when more than 5 remain — so
every accepted title carries between 2 and 5 words. -/
theorem c5_sanitize_title_behaviour :
    sanitize_title "Title: Weekend Hiking Plans" = some "Weekend Hiking Plans" ∧
      sanitize_title "ok" = none ∧
      sanitize_title "alpha beta gamma delta epsilon zeta eta" =
        some "alpha beta gamma delta epsilon" ∧
      sanitize_title "  “Weekend\nHiking   Plans.”  " = some "Weekend Hiking Plans" ∧
      ∀ raw t, sanitize_title raw = some t →
        2 ≤ (pySplitWs t.toList).length ∧ (pySplitWs t.toList).length ≤ 5 := by
  refine ⟨by decide, by decide, by decide, by decide, ?_⟩
  intro raw t h
  unfold sanitize_title at h
  split at h
  · simp at h
  · split at h
    · simp at h
    · exact finalizeTitleWords_word_bounds _ _ h

/-- C5 witness: the word-count bound of the sanitizer applied to the
concrete labelled input. -/
theorem c5_sanitize_title_behaviour_witness :
    2 ≤ (pySplitWs ("Weekend Hiking Plans" : String).toList).length ∧
      (pySplitWs ("Weekend Hiking Plans" : String).toList).length ≤ 5 :=
  c5_sanitize_title_behaviour.2.2.2.2 "Title: Weekend Hiking Plans" "Weekend Hiking Plans"
    (by decide)

theorem c10_update_missing_message_is_noop_witness :
    ((Store.mk [⟨"c", "New Conversation"⟩] [⟨1, "c", "user", "hi", none, none⟩] 2).messages.all
        (fun m => m.id != 5) = true) ∧
      update_message_audio_path "media"
          (Store.mk [⟨"c", "New Conversation"⟩] [⟨1, "c", "user", "hi", none, none⟩] 2) 5 "a.wav"
        = Store.mk [⟨"c", "New Conversation"⟩] [⟨1, "c", "user", "hi", none, none⟩] 2 :=
  ⟨by decide, c10_update_missing_message_is_noop "media" _ 5 "a.wav" (by decide)⟩

/-- C1 witness: the amended ordering at the concrete two-fragment turn. -/
theorem c1_event_order_witness :
    codeOrderOk (handle_text_message envFull emptyStore "c1" "What is the weather?"
        none none).events = true ∧
      codeOrderOk (handle_voice_message envFull emptyStore "c1" "What is the weather?"
        "in.wav" none none).events = true ∧
      deltaContents (handle_text_message envFull emptyStore "c1" "What is the weather?"
        none none).events = deltaPieces envFull.chunks :=
  c1_event_order envFull emptyStore "c1" "What is the weather?" "What is the weather?"
    "in.wav" none none none

/-- C2 witness: the amended fallback behaviour at a concrete failed
primary connection. -/
theorem c2_fallback_on_any_primary_error_witness :
    (stream_chat ⟨false, [], false⟩
          ⟨true, [GenerateLine.item (some "ok") true], false⟩).usedFallback
        = (stream_openai ⟨false, [], false⟩).errored ∧
      (stream_chat ⟨false, [], false⟩
          ⟨true, [GenerateLine.item (some "ok") true], false⟩).chunks
        = (stream_openai ⟨false, [], false⟩).chunks ++
            (if (stream_openai ⟨false, [], false⟩).errored then
              (stream_llm ⟨true, [GenerateLine.item (some "ok") true], false⟩).chunks
            else []) :=
  c2_fallback_on_any_primary_error ⟨false, [], false⟩
    ⟨true, [GenerateLine.item (some "ok") true], false⟩

/-- C6 witness: the amended characterization at concrete non-empty inputs
with all three attempts failing. -/
theorem c6_title_inference_total_witness :
    ((get_conversation_title "hello" "world" HttpOutcome.netError HttpOutcome.netError
          HttpOutcome.netError).contactedBackend = false ↔
        (pyStripStr "hello" = "" ∨ pyStripStr "world" = "")) ∧
      (make_title_request (HttpOutcome.netError : HttpOutcome OpenAITitleBody) = none ∧
        make_title_request (HttpOutcome.netError : HttpOutcome GenerateTitleBody) = none ∧
        make_title_request (HttpOutcome.netError : HttpOutcome ChatTitleBody) = none) ∧
      (get_conversation_title "hello" "world" HttpOutcome.netError HttpOutcome.netError
          HttpOutcome.netError).title = none :=
  c6_title_inference_total "hello" "world" HttpOutcome.netError HttpOutcome.netError
    HttpOutcome.netError

/-- C8 witness: the carriage-return-free guarantee at a concrete input. -/
theorem c8_clean_llm_text_behaviour_witness :
    '\r' ∉ (clean_llm_text "a\rb").toList :=
  c8_clean_llm_text_behaviour.2.2.2.2 "a\rb"

end RealishChat
